import Mathlib

/-! Shallow embedding of the hybrid-stylesheets transpiler (src/hss.js):
a character-level scanner (strings, comments, whitespace) driving a stack
of nested contexts (Root, Hss "stylesheet expression", Js "JavaScript
expression").  Strings are modelled as lists of characters; the transpiler
state is the remaining input, the current 1-indexed line number, the
current context and the stack of its ancestors (nearest parent first).
The main loop is given fuel; `transpile` supplies `input.length + 1`,
which is always enough because every iteration consumes at least one
input character. -/

namespace Hss

/-- Characters matched by the source's quoteRegex /['"`]/. -/
def isQuote (c : Char) : Bool := c = '\'' || c = '"' || c = '`'

/-- Characters matched by the source's whitespaceRegex /\s+/ on a single
character (the ASCII part of JavaScript's \s class). -/
def isWs (c : Char) : Bool :=
  c = ' ' || c = '\t' || c = '\n' || c = '\r' || c = '\x0b' || c = '\x0c'

/-- Reader.next's line update: the counter is incremented when the consumed
character is a newline. -/
def bump (line : Nat) (c : Char) : Nat := if c = '\n' then line + 1 else line

/-- The error Reader.error throws: the current line number and the message.
(The thrown SyntaxError also carries the filename, which is an external
argument of the transpiler and not modelled.) -/
structure Err where
  line : Nat
  msg : String
deriving DecidableEq

/-- Token types delivered to Context.add. -/
inductive TokType
  | comment
  | str
  | ws
deriving DecidableEq

/-- The scanning loop of Reader.STRING, after the opening delimiter `q` has
been consumed into `acc`: a backslash is consumed and dropped and the
following character is copied (a dangling backslash at end of input makes
JavaScript append "undefined" to the token, after which the end-of-file
error fires anyway); a raw newline is fatal unless the delimiter is a
backtick; the closing delimiter is consumed and included. -/
def stringLoop (q : Char) : Nat → List Char → List Char → Except Err (List Char × Nat × List Char)
  | line, _, [] => .error ⟨line, "Unexpected end of file"⟩
  | line, acc, c :: tl =>
    if c = q then .ok (acc ++ [q], line, tl)
    else if c = '\\' then
      match tl with
      | [] => .error ⟨line, "Unexpected end of file"⟩
      | d :: tl2 => stringLoop q (bump line d) (acc ++ [d]) tl2
    else if c = '\n' then
      if q = '`' then stringLoop q (line + 1) (acc ++ ['\n']) tl
      else .error ⟨line, "Unexpected multi-line string"⟩
    else stringLoop q line (acc ++ [c]) tl

/-- Reader.lineComment's loop: collects characters up to, and not
including, the next newline (or end of input). -/
def lineComment (acc : List Char) : List Char → List Char × List Char
  | [] => (acc, [])
  | c :: tl => if c = '\n' then (acc, c :: tl) else lineComment (acc ++ [c]) tl

/-- Reader.blockComment's loop, after the opening "/*" has been consumed
into `acc`: collects characters until the two-character lookahead is "*"
and "/", then consumes those two as well.  At end of input JavaScript's
`content += this.next() + this.next()` adds `undefined + undefined`,
which is NaN, and appends it to the string as "NaN". -/
def blockComment (line : Nat) (acc : List Char) : List Char → List Char × Nat × List Char
  | [] => (acc ++ ("NaN".toList), line, [])
  | '*' :: '/' :: tl => (acc ++ ['*', '/'], line, tl)
  | c :: tl => blockComment (bump line c) (acc ++ [c]) tl

/-- The context variants: RootContext, HssContext, JsContext. -/
inductive CtxKind
  | root
  | hss
  | js
deriving DecidableEq

/-- One context of the stack: its variant, accumulated content, the line
snapshot taken at creation, and JsContext's ignoreCount (0 and unused for
the other variants). -/
structure Ctx where
  kind : CtxKind
  content : List Char
  startingLine : Nat
  ignoreCount : Nat
deriving DecidableEq

/-- HssContext.STRING's str.replace, with the global regex matching a
single quote and the replacement "\\\\\\'", three literal backslashes and
a quote. -/
def escQuotes : List Char → List Char
  | [] => []
  | c :: tl => (if c = '\'' then ['\\', '\\', '\\', '\''] else [c]) ++ escQuotes tl

/-- JsContext.beforeAdd followed by the append of Context.add: the counter
is incremented exactly when the appended string is the single character
"[". -/
def jsAppend (c : Ctx) (s : List Char) : Ctx :=
  { c with ignoreCount := c.ignoreCount + (if s = ['['] then 1 else 0),
           content := c.content ++ s }

/-- HssContext.STRING: a token whose first character is not a single quote
is appended unchanged; otherwise the surrounding quotes are stripped
(slice(1,-1)), internal single quotes are escaped by escQuotes, and the
result is rewrapped in a backslash-escaped single quote on each side. -/
def hssString (c : Ctx) (s : List Char) : Ctx :=
  match s with
  | '\'' :: tl =>
      { c with content := c.content ++ ('\\' :: '\'' :: escQuotes tl.dropLast) ++ ['\\', '\''] }
  | _ => { c with content := c.content ++ s }

/-- Context.add with the per-type handlers: RootContext has none and
appends every token verbatim; HssContext and JsContext (both
ChildContexts) discard COMMENT tokens and collapse WHITESPACE (a space is
appended only when the content does not already end in one); HssContext
rewrites single-quoted STRING tokens; JsContext routes everything not
handled through beforeAdd. -/
def ctxAdd (c : Ctx) (ty : Option TokType) (s : List Char) : Ctx :=
  match c.kind, ty with
  | .root, _ => { c with content := c.content ++ s }
  | .hss, some .comment => c
  | .hss, some .ws =>
      if c.content.getLast? = some ' ' then c else { c with content := c.content ++ [' '] }
  | .hss, some .str => hssString c s
  | .hss, none => { c with content := c.content ++ s }
  | .js, some .comment => c
  | .js, some .ws =>
      if c.content.getLast? = some ' ' then c else jsAppend c [' ']
  | .js, some .str => jsAppend c s
  | .js, none => jsAppend c s

/-- JavaScript's String.prototype.trim over the modelled whitespace class,
as used by HssContext.toString. -/
def trimWs (l : List Char) : List Char :=
  ((l.dropWhile isWs).reverse.dropWhile isWs).reverse

/-- Context.toString / HssContext.toString / JsContext.toString. -/
def render (c : Ctx) : List Char :=
  match c.kind with
  | .root => c.content
  | .hss => '\'' :: (trimWs c.content ++ ['\''])
  | .js => ('\'' :: (" + sheath.css.jsExpr(".toList)) ++ c.content ++ ((") + ".toList) ++ ['\''])

/-- childContextEnd followed by saveChildContent on the parent:
RootContext wraps the serialized child in a sheath.css.evaluate(...) call;
the other contexts use the base saveChildContent, a plain untyped add. -/
def fold (p : Ctx) (s : List Char) : Ctx :=
  match p.kind with
  | .root => ctxAdd p none (("sheath.css.evaluate(".toList) ++ s ++ [')'])
  | _ => ctxAdd p none s

/-- Each context's endDelimiter getter. -/
def endDelim : CtxKind → String
  | .root => ""
  | .hss => ">>"
  | .js => "]"

/-- Each context's name getter. -/
def ctxName : CtxKind → String
  | .root => ""
  | .hss => "Hss expression"
  | .js => "JavaScript expression"

/-- The unterminated-region message built by Transpiler.transpile when
input runs out with a non-Root context current. -/
def untermMsg (c : Ctx) : String :=
  "Unexpected end of file. It looks like you forgot the closing \"" ++ endDelim c.kind
    ++ "\" of the " ++ ctxName c.kind ++ " beginning on line "
    ++ Nat.repr c.startingLine ++ "."

/-- A freshly constructed child context: empty content, a snapshot of the
current line, ignoreCount 0. -/
def newCtx (k : CtxKind) (line : Nat) : Ctx := ⟨k, [], line, 0⟩

/-- Case analysis on Reader.STRING's outcome: an error aborts the whole
transpile, a token is passed on. -/
def contin (r : Except Err (List Char × Nat × List Char))
    (k : List Char → Nat → List Char → Except Err (List Char)) : Except Err (List Char) :=
  match r with
  | .error e => .error e
  | .ok (tok, line2, rest) => k tok line2 rest

/-- Transpiler.endContext: Context.childContextEnd on the parent context,
which folds the closing child's serialized text `s` into that parent.
The empty-stack case cannot arise from transpile, whose stack always has
RootContext at the bottom and which never pops Root. -/
def foldInto (next : Ctx → List Ctx → Except Err (List Char)) (line : Nat) (s : List Char) :
    List Ctx → Except Err (List Char)
  | p :: stk2 => next (fold p s) stk2
  | [] => .error ⟨line, "no parent"⟩

/-- The driver's final else right after JsContext.contextEnd has consumed
a "]" under a positive ignoreCount and reported false: one further
character is consumed and added untyped (at end of input, JavaScript's
this.next() yields undefined, which += renders as "undefined"). -/
def consumeExtra (next : Nat → Ctx → List Char → Except Err (List Char)) (line : Nat)
    (cur2 : Ctx) : List Char → Except Err (List Char)
  | d :: tl2 => next (bump line d) (ctxAdd cur2 none [d]) tl2
  | [] => next line (ctxAdd cur2 none ("undefined".toList)) []

/-- One iteration of Transpiler.transpile's main loop, `next` being the
rest of the loop.  Branches, in the source's priority order: string open,
comment open (with the literal "/" fallback), whitespace, the current
context's childContextStart, its contextEnd, and the literal-character
default.  At end of input, a non-Root current context is the fatal
unterminated-region error and Root's accumulated content is the result.
JsContext.contextEnd with a positive ignoreCount consumes and appends the
"]", decrements the counter and reports false, after which the driver's
final else consumes one further character (consumeExtra). -/
def runBody (next : Nat → Ctx → List Ctx → List Char → Except Err (List Char))
    (line : Nat) (cur : Ctx) (stk : List Ctx) : List Char → Except Err (List Char)
  | [] => if cur.kind = .root then .ok cur.content else .error ⟨line, untermMsg cur⟩
  | c :: tl =>
    if isQuote c then
      contin (stringLoop c line [c] tl) fun tok line2 rest =>
        next line2 (ctxAdd cur (some .str) tok) stk rest
    else if c = '/' then
      if tl.head? = some '/' then
        next line (ctxAdd cur (some .comment) (lineComment [] (c :: tl)).1) stk
          (lineComment [] (c :: tl)).2
      else if tl.head? = some '*' then
        next (blockComment line ['/', '*'] tl.tail).2.1
          (ctxAdd cur (some .comment) (blockComment line ['/', '*'] tl.tail).1) stk
          (blockComment line ['/', '*'] tl.tail).2.2
      else next line (ctxAdd cur none [c]) stk tl
    else if isWs c then
      next (bump line c) (ctxAdd cur (some .ws) [c]) stk tl
    else if cur.kind = .root then
      if c = '<' ∧ tl.head? = some '<' then
        next line (newCtx .hss line) (cur :: stk) tl.tail
      else
        next (bump line c) (ctxAdd cur none [c]) stk tl
    else if cur.kind = .hss then
      if c = '[' then
        next line (newCtx .js line) (cur :: stk) tl
      else if c = '>' ∧ tl.head? = some '>' then
        foldInto (fun p2 stk2 => next line p2 stk2 tl.tail) line (render cur) stk
      else
        next (bump line c) (ctxAdd cur none [c]) stk tl
    else
      if c = '<' ∧ tl.head? = some '<' then
        next line (newCtx .hss line) (cur :: stk) tl.tail
      else if c = ']' then
        if cur.ignoreCount ≠ 0 then
          consumeExtra (fun line2 cur3 tl2 => next line2 cur3 stk tl2) line
            { ctxAdd cur none [']'] with ignoreCount := cur.ignoreCount - 1 } tl
        else
          foldInto (fun p2 stk2 => next line p2 stk2 tl) line (render cur) stk
      else
        next (bump line c) (ctxAdd cur none [c]) stk tl

/-- Transpiler.transpile's main loop.  The fuel argument only bounds the
iteration count; every iteration consumes at least one character, so the
fuel transpile supplies never runs out. -/
def run : Nat → Nat → Ctx → List Ctx → List Char → Except Err (List Char)
  | 0, line, _, _, _ => .error ⟨line, "out of fuel"⟩
  | fuel + 1, line, cur, stk, input => runBody (run fuel) line cur stk input

/-- Transpiler.transpile on a whole input: line counter 1, a fresh
RootContext, an empty ancestor stack. -/
def transpile (s : String) : Except Err String :=
  (run (s.toList.length + 1) 1 ⟨.root, [], 1, 0⟩ [] s.toList).map List.asString

/-! Spec-side definitions.  These follow the spec's words rather than the
source and are used only to state claims: occurrence counting for the
"exactly n call expressions" claims, the escape-unit grammar of the
string-token body for C2/C7, and the plain-input predicate of the amended
C3. -/

/-- Number of positions at which `pat` occurs as a sublist. -/
def countSub (pat : List Char) : List Char → Nat
  | [] => 0
  | c :: tl => (if pat.isPrefixOf (c :: tl) then 1 else 0) + countSub pat tl

/-- A unit of a string-token body as the spec describes it: either an
ordinary character or a backslash escape, a backslash followed by exactly
one character. -/
inductive EscUnit
  | raw (c : Char)
  | esc (c : Char)

/-- The input text of a list of body units. -/
def renderUnits : List EscUnit → List Char
  | [] => []
  | .raw c :: us => c :: renderUnits us
  | .esc c :: us => '\\' :: c :: renderUnits us

/-- The characters the scanner keeps for a list of body units: a raw
character is copied, and of an escape only the character after the
backslash is kept. -/
def stripUnits : List EscUnit → List Char
  | [] => []
  | .raw c :: us => c :: stripUnits us
  | .esc c :: us => c :: stripUnits us

/-- Whether a body unit lets the scan of a `q`-delimited string continue:
a raw character must not be the delimiter or a backslash, and a raw
newline only under a backtick delimiter; an escaped character is
unrestricted. -/
def unitOk (q : Char) : EscUnit → Bool
  | .raw c => c ≠ q && c ≠ '\\' && (c ≠ '\n' || q = '`')
  | .esc _ => true

/-- Newlines consumed while scanning a list of body units (the scanner's
line counter advances on every consumed newline, raw under a backtick or
escaped under any delimiter). -/
def unitLines : List EscUnit → Nat
  | [] => 0
  | .raw c :: us => (if c = '\n' then 1 else 0) + unitLines us
  | .esc c :: us => (if c = '\n' then 1 else 0) + unitLines us

/-- Splits a clean string-token body: given the input after the opening
delimiter `q`, returns the body characters and the input after the
closing delimiter, provided a closing `q` is reached with no backslash
and no raw newline under a non-backtick delimiter. -/
def strPlain (q : Char) : List Char → Option (List Char × List Char)
  | [] => none
  | c :: tl =>
    if c = q then some ([], tl)
    else if c = '\\' then none
    else if c = '\n' ∧ q ≠ '`' then none
    else (strPlain q tl).map fun p => (c :: p.1, p.2)

/-- Splits at the next newline: the characters before it, and the rest
beginning with that newline (or empty at end of input). -/
def lineSplit : List Char → List Char × List Char
  | [] => ([], [])
  | c :: tl =>
    if c = '\n' then ([], c :: tl)
    else (c :: (lineSplit tl).1, (lineSplit tl).2)

/-- Splits a terminated block-comment body at the first "*/": the
characters before it and the input after it. -/
def blockSplit : List Char → Option (List Char × List Char)
  | [] => none
  | '*' :: '/' :: tl => some ([], tl)
  | c :: tl => (blockSplit tl).map fun p => (c :: p.1, p.2)

/-- The input class of the amended C3, checked token by token in lockstep
with the driver's fuel: no "<<" outside string and comment tokens, every
string token terminated with no backslash and no raw newline under a
single/double-quote delimiter, and every block comment terminated. -/
def plainOk : Nat → List Char → Bool
  | 0, _ => false
  | _ + 1, [] => true
  | fuel + 1, c :: tl =>
    if isQuote c then
      match strPlain c tl with
      | some (_, rest) => plainOk fuel rest
      | none => false
    else if c = '/' then
      if tl.head? = some '/' then plainOk fuel (lineSplit (c :: tl)).2
      else if tl.head? = some '*' then
        match blockSplit tl.tail with
        | some (_, rest) => plainOk fuel rest
        | none => false
      else plainOk fuel tl
    else if c = '<' then
      if tl.head? = some '<' then false else plainOk fuel tl
    else plainOk fuel tl

/-! Helper lemmas. -/

/-- RootContext has no per-type handler and no beforeAdd: add appends
verbatim whatever the token type. -/
theorem ctxAdd_root (C : List Char) (sl ig : Nat) (ty : Option TokType) (s : List Char) :
    ctxAdd ⟨.root, C, sl, ig⟩ ty s = ⟨.root, C ++ s, sl, ig⟩ := by
  cases ty with
  | none => rfl
  | some t => cases t <;> rfl

/-- A successful strPlain is a genuine split of its input around the
closing delimiter. -/
theorem strPlain_split (q : Char) :
    ∀ tl seg rest, strPlain q tl = some (seg, rest) → tl = seg ++ q :: rest := by
  intro tl
  induction tl with
  | nil => intro seg rest h; simp [strPlain] at h
  | cons c tl ih =>
    intro seg rest h
    rw [strPlain] at h
    split_ifs at h with h1 h2 h3
    · simp only [Option.some.injEq, Prod.mk.injEq] at h
      obtain ⟨rfl, rfl⟩ := h
      simp [h1]
    · cases hp : strPlain q tl with
      | none => rw [hp] at h; simp at h
      | some p =>
        obtain ⟨s1, r1⟩ := p
        rw [hp] at h
        simp only [Option.map_some', Option.some.injEq, Prod.mk.injEq] at h
        obtain ⟨rfl, rfl⟩ := h
        simpa using ih s1 r1 hp

/-- On a clean body, Reader.STRING's loop succeeds, copies the body
verbatim, appends the closing delimiter and leaves exactly the split's
remainder. -/
theorem strPlain_stringLoop (q : Char) :
    ∀ tl seg rest, strPlain q tl = some (seg, rest) →
      ∀ line acc, ∃ line2,
        stringLoop q line acc tl = .ok (acc ++ seg ++ [q], line2, rest) := by
  intro tl
  induction tl with
  | nil => intro seg rest h; simp [strPlain] at h
  | cons c tl ih =>
    intro seg rest h line acc
    rw [strPlain] at h
    split_ifs at h with h1 h2 h3
    · simp only [Option.some.injEq, Prod.mk.injEq] at h
      obtain ⟨rfl, rfl⟩ := h
      refine ⟨line, ?_⟩
      rw [stringLoop.eq_def]
      simp [h1]
    · cases hp : strPlain q tl with
      | none => rw [hp] at h; simp at h
      | some p =>
        obtain ⟨s1, r1⟩ := p
        rw [hp] at h
        simp only [Option.map_some', Option.some.injEq, Prod.mk.injEq] at h
        obtain ⟨rfl, rfl⟩ := h
        by_cases hn : c = '\n'
        · have hbt : q = '`' := by
            by_contra hbt
            exact h3 ⟨hn, hbt⟩
          subst hbt
          subst hn
          obtain ⟨line2, hrec⟩ := ih s1 r1 hp (line + 1) (acc ++ ['\n'])
          refine ⟨line2, ?_⟩
          rw [stringLoop.eq_def]
          simp [hrec]
        · obtain ⟨line2, hrec⟩ := ih s1 r1 hp line (acc ++ [c])
          refine ⟨line2, ?_⟩
          rw [stringLoop.eq_def]
          simp [h1, h2, hn, hrec]

/-- Reader.STRING's loop closes on an unescaped delimiter, consuming it
into the token. -/
theorem stringLoop_close (q : Char) (line : Nat) (acc tl : List Char) :
    stringLoop q line acc (q :: tl) = .ok (acc ++ [q], line, tl) := by
  rw [stringLoop.eq_def]
  simp

/-- Reader.STRING's escape branch: the backslash is consumed and dropped,
the very next character is consumed and copied whatever it is, and the
line counter advances if that character is a newline. -/
theorem stringLoop_esc (q : Char) (hqb : ¬('\\' = q)) (line : Nat) (acc : List Char) (d : Char)
    (tl : List Char) :
    stringLoop q line acc ('\\' :: d :: tl) = stringLoop q (bump line d) (acc ++ [d]) tl := by
  rw [stringLoop.eq_def]
  simp [hqb]

/-- Reader.STRING's default branch: an ordinary character is consumed and
copied. -/
theorem stringLoop_raw (q c : Char) (h1 : ¬(c = q)) (h2 : ¬(c = '\\')) (hn : ¬(c = '\n'))
    (line : Nat) (acc tl : List Char) :
    stringLoop q line acc (c :: tl) = stringLoop q line (acc ++ [c]) tl := by
  rw [stringLoop.eq_def]
  simp [h1, h2, hn]

/-- Reader.STRING on a raw newline under a non-backtick delimiter: the
fatal multi-line-string error, thrown before the newline is consumed, so
at the current line number. -/
theorem stringLoop_nl_err (q : Char) (h1 : ¬('\n' = q)) (h2 : ¬(q = '`')) (line : Nat)
    (acc tl : List Char) :
    stringLoop q line acc ('\n' :: tl) = .error ⟨line, "Unexpected multi-line string"⟩ := by
  rw [stringLoop.eq_def]
  simp [h1, h2]

/-- Reader.STRING on a raw newline under the backtick delimiter: the
newline is consumed into the token and the line counter advances. -/
theorem stringLoop_nl_bt (line : Nat) (acc tl : List Char) :
    stringLoop '`' line acc ('\n' :: tl) = stringLoop '`' (line + 1) (acc ++ ['\n']) tl := by
  rw [stringLoop.eq_def]
  simp

/-- lineSplit is a split of its input. -/
theorem lineSplit_append : ∀ l : List Char, (lineSplit l).1 ++ (lineSplit l).2 = l := by
  intro l
  induction l with
  | nil => simp [lineSplit]
  | cons c tl ih =>
    rw [lineSplit]
    by_cases h : c = '\n'
    · simp [h]
    · simp only [if_neg h]
      simpa using ih

/-- Reader.lineComment computes exactly lineSplit, prefixed by its
accumulator. -/
theorem lineComment_eq :
    ∀ (l : List Char) (acc : List Char),
      lineComment acc l = (acc ++ (lineSplit l).1, (lineSplit l).2) := by
  intro l
  induction l with
  | nil => intro acc; simp [lineComment, lineSplit]
  | cons c tl ih =>
    intro acc
    rw [lineComment, lineSplit]
    by_cases h : c = '\n'
    · simp [h]
    · simp only [if_neg h]
      rw [ih (acc ++ [c])]
      simp

/-- A successful blockSplit is a genuine split of its input around the
closing "*"-"/" pair, and Reader.blockComment consumes exactly that split,
appending the body and the closer to its accumulator. -/
theorem blockSplit_spec :
    ∀ tl seg rest, blockSplit tl = some (seg, rest) →
      tl = seg ++ '*' :: '/' :: rest ∧
        ∀ line acc, ∃ line2,
          blockComment line acc tl = (acc ++ seg ++ ['*', '/'], line2, rest) := by
  intro tl
  induction tl using blockSplit.induct with
  | case1 => intro seg rest h; simp [blockSplit] at h
  | case2 tl =>
    intro seg rest h
    rw [blockSplit] at h
    simp only [Option.some.injEq, Prod.mk.injEq] at h
    obtain ⟨rfl, rfl⟩ := h
    exact ⟨by simp, fun line acc => ⟨line, by rw [blockComment]; simp⟩⟩
  | case3 c tl hne ih =>
    intro seg rest h
    rw [blockSplit.eq_3 c tl hne] at h
    cases hp : blockSplit tl with
    | none => rw [hp] at h; simp at h
    | some p =>
      obtain ⟨s1, r1⟩ := p
      rw [hp] at h
      simp only [Option.map_some', Option.some.injEq, Prod.mk.injEq] at h
      obtain ⟨rfl, rfl⟩ := h
      obtain ⟨hsplit, hrun⟩ := ih s1 r1 hp
      constructor
      · rw [List.cons_append, ← hsplit]
      · intro line acc
        obtain ⟨line2, hbc⟩ := hrun (bump line c) (acc ++ [c])
        refine ⟨line2, ?_⟩
        rw [blockComment.eq_3 _ _ c tl hne, hbc]
        simp

/-- One driver step on a quote character whose string token scans
successfully: the token is delivered to the current context as STRING and
the loop continues, whatever the context and its bracket counter. -/
theorem run_quote_ok (f line : Nat) (cur : Ctx) (stk : List Ctx) (c : Char) (tl tok : List Char)
    (line2 : Nat) (rest : List Char) (hq : isQuote c = true)
    (hs : stringLoop c line [c] tl = .ok (tok, line2, rest)) :
    run (f + 1) line cur stk (c :: tl) = run f line2 (ctxAdd cur (some .str) tok) stk rest := by
  rw [run, runBody]
  simp [hq, hs, contin]

/-- One driver step on a quote character whose string token scan fails:
the error aborts the whole transpile. -/
theorem run_quote_err (f line : Nat) (cur : Ctx) (stk : List Ctx) (c : Char) (tl : List Char)
    (e : Err) (hq : isQuote c = true) (hs : stringLoop c line [c] tl = .error e) :
    run (f + 1) line cur stk (c :: tl) = .error e := by
  rw [run, runBody]
  simp [hq, hs, contin]

/-- One driver step on "//": the whole line comment is scanned and
delivered to the current context as COMMENT. -/
theorem run_lineComment (f line : Nat) (cur : Ctx) (stk : List Ctx) (tl : List Char) :
    run (f + 1) line cur stk ('/' :: '/' :: tl)
      = run f line (ctxAdd cur (some .comment) (lineComment [] ('/' :: '/' :: tl)).1) stk
          (lineComment [] ('/' :: '/' :: tl)).2 := by
  rw [run, runBody]
  simp [isQuote]

/-- One driver step on "/*": the whole block comment is scanned and
delivered to the current context as COMMENT. -/
theorem run_blockComment (f line : Nat) (cur : Ctx) (stk : List Ctx) (tl : List Char) :
    run (f + 1) line cur stk ('/' :: '*' :: tl)
      = run f (blockComment line ['/', '*'] tl).2.1
          (ctxAdd cur (some .comment) (blockComment line ['/', '*'] tl).1) stk
          (blockComment line ['/', '*'] tl).2.2 := by
  rw [run, runBody]
  simp [isQuote]

/-- One driver step on a lone "/" that opens no comment: the character is
added untyped. -/
theorem run_slash_lit (f line : Nat) (cur : Ctx) (stk : List Ctx) (tl : List Char)
    (h1 : tl.head? ≠ some '/') (h2 : tl.head? ≠ some '*') :
    run (f + 1) line cur stk ('/' :: tl) = run f line (ctxAdd cur none ['/']) stk tl := by
  rw [run, runBody]
  simp [isQuote, h1, h2]

/-- One driver step on a whitespace character: a one-character WHITESPACE
token is delivered and the line counter is bumped. -/
theorem run_ws (f line : Nat) (cur : Ctx) (stk : List Ctx) (c : Char) (tl : List Char)
    (hw : isWs c = true) (hq : isQuote c = false) (hs : c ≠ '/') :
    run (f + 1) line cur stk (c :: tl)
      = run f (bump line c) (ctxAdd cur (some .ws) [c]) stk tl := by
  rw [run, runBody]
  simp [hq, hs, hw]

/-- One driver step at Root on an ordinary character: neither a token
opener nor "<<", so the character is appended verbatim. -/
theorem run_root_lit (f line : Nat) (C : List Char) (sl ig : Nat) (stk : List Ctx) (c : Char)
    (tl : List Char) (hq : isQuote c = false) (hs : c ≠ '/') (hw : isWs c = false)
    (hlt : ¬(c = '<' ∧ tl.head? = some '<')) :
    run (f + 1) line ⟨.root, C, sl, ig⟩ stk (c :: tl)
      = run f (bump line c) ⟨.root, C ++ [c], sl, ig⟩ stk tl := by
  rw [run, runBody]
  simp [hq, hs, hw, hlt, ctxAdd_root]

/-- Main preservation lemma for the amended C3: on plain input (no "<<"
outside tokens, clean strings, terminated block comments) the driver, at
Root, appends every token verbatim and never changes context, whatever
content has accumulated. -/
theorem run_root_plain (fuel : Nat) :
    ∀ input C line sl ig, plainOk fuel input = true →
      run fuel line ⟨.root, C, sl, ig⟩ [] input = .ok (C ++ input) := by
  induction fuel with
  | zero =>
    intro input C line sl ig h
    simp [plainOk] at h
  | succ f ih =>
    intro input C line sl ig h
    cases input with
    | nil => simp [run, runBody]
    | cons c tl =>
      rw [plainOk.eq_def] at h
      by_cases hq : isQuote c = true
      · simp only [hq, if_true, ite_true, if_pos] at h
        cases hsp : strPlain c tl with
        | none => rw [hsp] at h; simp at h
        | some p =>
          obtain ⟨seg, rest⟩ := p
          rw [hsp] at h
          simp only [] at h
          obtain ⟨line2, hloop⟩ := strPlain_stringLoop c tl seg rest hsp line [c]
          rw [run_quote_ok f line _ [] c tl _ line2 rest hq hloop, ctxAdd_root]
          rw [ih rest (C ++ ([c] ++ seg ++ [c])) line2 sl ig h]
          rw [strPlain_split c tl seg rest hsp]
          simp
      · by_cases hs : c = '/'
        · subst hs
          simp only [hq, Bool.false_eq_true, if_false, ite_false, if_neg, if_pos, if_true,
            ite_true] at h
          by_cases hd1 : tl.head? = some '/'
          · rw [if_pos hd1] at h
            obtain ⟨d, tl2, rfl⟩ : ∃ d tl2, tl = d :: tl2 := by
              cases tl with
              | nil => simp at hd1
              | cons d tl2 => exact ⟨d, tl2, rfl⟩
            have hd : d = '/' := by simpa using hd1
            subst hd
            rw [run_lineComment, lineComment_eq, ctxAdd_root]
            simp only [List.nil_append]
            rw [ih _ _ line sl ig h]
            rw [List.append_assoc, lineSplit_append]
          · rw [if_neg hd1] at h
            by_cases hd2 : tl.head? = some '*'
            · rw [if_pos hd2] at h
              obtain ⟨d, tl2, rfl⟩ : ∃ d tl2, tl = d :: tl2 := by
                cases tl with
                | nil => simp at hd2
                | cons d tl2 => exact ⟨d, tl2, rfl⟩
              have hd : d = '*' := by simpa using hd2
              subst hd
              replace h : (match blockSplit tl2 with
                  | some (_, rest) => plainOk f rest
                  | none => false) = true := h
              cases hbs : blockSplit tl2 with
              | none => rw [hbs] at h; simp at h
              | some p =>
                obtain ⟨seg, rest⟩ := p
                rw [hbs] at h
                simp only [] at h
                obtain ⟨hsplitB, hbc⟩ := blockSplit_spec tl2 seg rest hbs
                obtain ⟨line2, hbcrun⟩ := hbc line ['/', '*']
                rw [run_blockComment]
                rw [hbcrun]
                simp only []
                rw [ctxAdd_root]
                rw [ih rest _ line2 sl ig h]
                rw [hsplitB]
                simp
            · rw [if_neg hd2] at h
              rw [run_slash_lit f line _ [] tl hd1 hd2, ctxAdd_root]
              rw [ih tl (C ++ ['/']) line sl ig h]
              simp
        · by_cases hw : isWs c = true
          · have hlt : c ≠ '<' := by
              intro hc
              subst hc
              simp [isWs] at hw
            simp only [hq, Bool.false_eq_true, if_false, ite_false, if_neg hs, if_neg hlt] at h
            rw [run_ws f line _ [] c tl hw (by simpa using hq) hs, ctxAdd_root]
            rw [ih tl (C ++ [c]) (bump line c) sl ig h]
            simp
          · by_cases hc : c = '<'
            · subst hc
              simp only [hq, Bool.false_eq_true, if_false, ite_false, if_neg hs, if_pos rfl] at h
              by_cases hd : tl.head? = some '<'
              · rw [if_pos hd] at h
                simp at h
              · rw [if_neg hd] at h
                rw [run_root_lit f line C sl ig [] '<' tl (by simpa using hq) hs
                  (by simpa using hw) (by simp [hd])]
                rw [ih tl (C ++ ['<']) (bump line '<') sl ig h]
                simp
            · simp only [hq, Bool.false_eq_true, if_false, ite_false, if_neg hs, if_neg hc] at h
              rw [run_root_lit f line C sl ig [] c tl (by simpa using hq) hs
                (by simpa using hw) (by simp [hc])]
              rw [ih tl (C ++ [c]) (bump line c) sl ig h]
              simp

/-! The claims. -/

/-- C1 (counterexample): for the nested input `<<a[<<b>>]>>` — a
stylesheet region containing a host-expression region containing another
stylesheet region — the output contains exactly ONE evaluate call, so it
cannot be three nested calls with an evaluate call inside the jsExpr
call: JsContext inherits the base saveChildContent, which appends the
inner stylesheet region's quoted serialization with no evaluate
wrapper. -/
theorem C1_counterexample :
    transpile "<<a[<<b>>]>>" = .ok "sheath.css.evaluate('a' + sheath.css.jsExpr('b') + '')"
      ∧ countSub ("sheath.css.evaluate(".toList)
          ("sheath.css.evaluate('a' + sheath.css.jsExpr('b') + '')".toList) = 1 :=
  ⟨rfl, by decide⟩

/-- C1 (amended): a stylesheet region containing a host-expression region
containing another stylesheet region (input `<<a[<<b>>]>>`) transpiles to
an output with exactly two nested call expressions — one evaluate call
wrapping one jsExpr call — the innermost stylesheet region folding into
the host expression as the plain single-quoted string 'b', with no
evaluate call of its own. -/
theorem C1_theorem :
    transpile "<<a[<<b>>]>>" = .ok "sheath.css.evaluate('a' + sheath.css.jsExpr('b') + '')"
      ∧ countSub ("sheath.css.evaluate(".toList)
          ("sheath.css.evaluate('a' + sheath.css.jsExpr('b') + '')".toList) = 1
      ∧ countSub ("sheath.css.jsExpr(".toList)
          ("sheath.css.evaluate('a' + sheath.css.jsExpr('b') + '')".toList) = 1
      ∧ countSub ("'b'".toList)
          ("sheath.css.evaluate('a' + sheath.css.jsExpr('b') + '')".toList) = 1 :=
  ⟨rfl, by decide, by decide, by decide⟩

/-- C2 (counterexample): scanning the double-quoted string token of the
input `"\a"`, the backslash is consumed and discarded (the source's own
comment says "strip the escape character"), so the resulting STRING token
is `"a"`, which contains no backslash: the backslash is NOT copied into
the token. -/
theorem C2_counterexample :
    stringLoop '"' 1 ['"'] ("\\a\"".toList) = .ok ("\"a\"".toList, 1, [])
      ∧ '\\' ∉ ("\"a\"".toList)
      ∧ transpile "\"\\a\"" = .ok "\"a\"" :=
  ⟨rfl, by decide, rfl⟩

/-- C2 (amended): for every string token scanned (any of the three
delimiters), whenever a backslash is encountered inside the string, the
backslash is consumed and DISCARDED and the exactly one character
following it is copied unchanged into the resulting STRING token, with no
semantic interpretation of the escape sequence (even a delimiter or a
newline after the backslash is copied literally). -/
theorem C2_theorem (q : Char) (hq : isQuote q = true) :
    ∀ us : List EscUnit, us.all (unitOk q) = true →
      ∀ rest line acc,
        stringLoop q line acc (renderUnits us ++ q :: rest)
          = .ok (acc ++ stripUnits us ++ [q], line + unitLines us, rest) := by
  have hqs : (q = '\'' ∨ q = '"') ∨ q = '`' := by
    simpa [isQuote] using hq
  have hqb : ¬('\\' = q) := by
    rcases hqs with (rfl | rfl) | rfl <;> decide
  intro us
  induction us with
  | nil =>
    intro _ rest line acc
    rw [renderUnits, List.nil_append, stringLoop_close]
    simp [stripUnits, unitLines]
  | cons u us ih =>
    intro hall rest line acc
    simp only [List.all_cons, Bool.and_eq_true] at hall
    obtain ⟨hu, hall⟩ := hall
    cases u with
    | raw c =>
      simp only [unitOk, Bool.and_eq_true, decide_eq_true_eq, Bool.or_eq_true] at hu
      obtain ⟨⟨h1, h2⟩, h3⟩ := hu
      by_cases hn : c = '\n'
      · have hbt : q = '`' := by
          rcases h3 with h3 | h3
          · exact absurd hn h3
          · exact h3
        subst hbt
        subst hn
        rw [renderUnits, List.cons_append, stringLoop_nl_bt]
        rw [ih hall rest (line + 1) (acc ++ ['\n'])]
        simp [stripUnits, unitLines, List.append_assoc, Nat.add_assoc]
      · rw [renderUnits, List.cons_append, stringLoop_raw q c h1 h2 hn]
        rw [ih hall rest line (acc ++ [c])]
        simp [stripUnits, unitLines, List.append_assoc, hn]
    | esc c =>
      rw [renderUnits, List.cons_append, List.cons_append, stringLoop_esc q hqb]
      rw [ih hall rest (bump line c) (acc ++ [c])]
      by_cases hc : c = '\n' <;>
        simp [bump, hc, stripUnits, unitLines, List.append_assoc, Nat.add_assoc]

/-- C2 (witness): the amended C2 at the double-quote delimiter on the
body `\n` followed by `x` (an escaped n and a raw x): the token keeps the
n without its backslash and the x, and no newline was consumed. -/
theorem C2_witness :
    stringLoop '"' 1 ['"'] (renderUnits [.esc 'n', .raw 'x'] ++ '"' :: [])
      = .ok (['"'] ++ stripUnits [.esc 'n', .raw 'x'] ++ ['"'],
          1 + unitLines [.esc 'n', .raw 'x'], []) :=
  C2_theorem '"' (by decide) [.esc 'n', .raw 'x'] (by decide) [] 1 ['"']

/-- C3 (counterexample): Root does not always return the input unchanged.
A backslash inside a string literal is dropped (`"\b"` comes back as
`"b"`), an unterminated string makes transpile throw instead of
returning, an unterminated block comment gains the "NaN" artifact of
JavaScript's undefined + undefined, and a raw newline in a double-quoted
string throws. -/
theorem C3_counterexample :
    transpile "\"\\b\"" = .ok "\"b\""
      ∧ ("\"\\b\"" : String) ≠ "\"b\""
      ∧ transpile "\"abc" = .error ⟨1, "Unexpected end of file"⟩
      ∧ transpile "/*a" = .ok "/*aNaN"
      ∧ transpile "\"a\nb\"" = .error ⟨1, "Unexpected multi-line string"⟩ :=
  ⟨rfl, by decide, rfl, rfl, rfl⟩

/-- C3 (amended): for every input that contains no "<<" outside string
and comment tokens, in which every string literal is terminated, contains
no backslash and no raw newline under a single/double-quote delimiter,
and every block comment is terminated (the plainOk predicate), transpile
returns the input unchanged: all comments and all such string literals
are preserved verbatim by Root. -/
theorem C3_theorem (s : String) (h : plainOk (s.toList.length + 1) s.toList = true) :
    transpile s = .ok s := by
  unfold transpile
  rw [run_root_plain (s.toList.length + 1) s.toList [] 1 1 0 h]
  show Except.ok (s.toList.asString) = Except.ok s
  rw [String.asString_toList]

/-- C3 (witness): the amended C3 on an input holding a string literal
(with "<<" inside it), a block comment, a line comment and plain text:
the output is the input, verbatim. -/
theorem C3_witness :
    transpile "a 'x<<y' /* k */ + b //end" = .ok "a 'x<<y' /* k */ + b //end" :=
  C3_theorem "a 'x<<y' /* k */ + b //end" (by decide)

/-- C4: transpiling `<< 'a' + [x+1] >>` produces exactly
`sheath.css.evaluate('\'a\' + ' + sheath.css.jsExpr(x+1) + '')` — the
region's content is trimmed and wrapped in single quotes, the inner
single-quoted string is stripped and rewrapped in escaped single quotes,
the host expression is spliced via a jsExpr call, and the whole is
wrapped in an evaluate call of the external sheath.css runtime module. -/
theorem C4_theorem :
    transpile "<< 'a' + [x+1] >>"
      = .ok "sheath.css.evaluate('\\'a\\' + ' + sheath.css.jsExpr(x+1) + '')" :=
  rfl

/-- C5 (code bug): the bracket-depth rule fails on adjacent closing
brackets.  In `<<[a[1]]>>`, JsContext.contextEnd sees the inner "]" with
ignoreCount 1, consumes and appends it, decrements the counter and
returns false — whereupon the driver's final else consumes the NEXT
character unconditionally, swallowing the real terminating "]" as literal
content, so the host expression never closes and transpile raises the
unterminated-region error.  With the brackets separated (`<<[ [1] ]>>`)
the region closes at the real terminating bracket as the claim says. -/
theorem C5_theorem :
    transpile "<<[a[1]]>>"
      = .error ⟨1, "Unexpected end of file. It looks like you forgot the closing \"]\" of the JavaScript expression beginning on line 1."⟩
      ∧ transpile "<<[ [1] ]>>" = .ok "sheath.css.evaluate('' + sheath.css.jsExpr( [1] ) + '')" :=
  ⟨rfl, rfl⟩

/-- C6: on input `<<` the input is exhausted while the current context is
the Hss (stylesheet) expression, so transpile raises the fatal
unterminated-region error; its message names the region's identity ("Hss
expression"), its close delimiter ">>", and the line the region began on
(line 1), and the error's line number is 1. -/
theorem C6_theorem :
    transpile "<<"
      = .error ⟨1, "Unexpected end of file. It looks like you forgot the closing \">>\" of the Hss expression beginning on line 1."⟩
      ∧ countSub (">>".toList)
          ("Unexpected end of file. It looks like you forgot the closing \">>\" of the Hss expression beginning on line 1.".toList) = 1
      ∧ countSub ("Hss expression".toList)
          ("Unexpected end of file. It looks like you forgot the closing \">>\" of the Hss expression beginning on line 1.".toList) = 1
      ∧ countSub ("beginning on line 1.".toList)
          ("Unexpected end of file. It looks like you forgot the closing \">>\" of the Hss expression beginning on line 1.".toList) = 1 :=
  ⟨rfl, by decide, by decide, by decide⟩

/-- C7: while scanning a string token, a raw newline under a single or
double quote delimiter is the fatal multi-line-string error; a raw
newline under a backtick delimiter is consumed and permitted; end of
input before the closing delimiter is the fatal end-of-file error;
a string-scan error aborts the whole transpile; and the concrete
scenario: `"abc` raises the end-of-file error. -/
theorem C7_theorem :
    (∀ q, (q = '\'' ∨ q = '"') → ∀ pre : List Char, q ∉ pre → '\\' ∉ pre → '\n' ∉ pre →
        ∀ rest line acc,
          stringLoop q line acc (pre ++ '\n' :: rest)
            = .error ⟨line, "Unexpected multi-line string"⟩)
      ∧ (∀ line : Nat, ∀ acc tl : List Char,
          stringLoop '`' line acc ('\n' :: tl) = stringLoop '`' (line + 1) (acc ++ ['\n']) tl)
      ∧ (∀ q, isQuote q = true → ∀ pre : List Char, q ∉ pre → '\\' ∉ pre → '\n' ∉ pre →
          ∀ line acc, stringLoop q line acc pre = .error ⟨line, "Unexpected end of file"⟩)
      ∧ (∀ f line (cur : Ctx) (stk : List Ctx) c tl e, isQuote c = true →
          stringLoop c line [c] tl = .error e →
          run (f + 1) line cur stk (c :: tl) = .error e)
      ∧ transpile "\"abc" = .error ⟨1, "Unexpected end of file"⟩ := by
  refine ⟨?_, stringLoop_nl_bt, ?_, run_quote_err, rfl⟩
  · intro q hq pre
    induction pre with
    | nil =>
      intro _ _ _ rest line acc
      have h1 : ¬('\n' = q) := by rcases hq with rfl | rfl <;> decide
      have h2 : ¬(q = '`') := by rcases hq with rfl | rfl <;> decide
      exact stringLoop_nl_err q h1 h2 line acc rest
    | cons c pre ih =>
      intro hq2 hb hn rest line acc
      simp only [List.mem_cons, not_or] at hq2 hb hn
      rw [List.cons_append,
        stringLoop_raw q c (fun h => hq2.1 h.symm) (fun h => hb.1 h.symm)
          (fun h => hn.1 h.symm)]
      exact ih hq2.2 hb.2 hn.2 rest line (acc ++ [c])
  · intro q hqt pre
    induction pre with
    | nil =>
      intro _ _ _ line acc
      rw [stringLoop.eq_def]
    | cons c pre ih =>
      intro hq2 hb hn line acc
      simp only [List.mem_cons, not_or] at hq2 hb hn
      rw [stringLoop_raw q c (fun h => hq2.1 h.symm) (fun h => hb.1 h.symm)
        (fun h => hn.1 h.symm)]
      exact ih hq2.2 hb.2 hn.2 line (acc ++ [c])

/-- C7 (witness): the three error/permission statements of C7 at concrete
inputs: a raw newline inside `"ab<newline>c"` errors at line 1; a raw
newline inside a backtick string is consumed; the unterminated `"xy` at
line 5 errors with the end-of-file message; an erroring string scan
aborts run. -/
theorem C7_witness :
    stringLoop '"' 1 ['"'] ("ab".toList ++ '\n' :: "c".toList)
        = .error ⟨1, "Unexpected multi-line string"⟩
      ∧ stringLoop '`' 1 ['`'] ('\n' :: "z".toList) = stringLoop '`' 2 (['`'] ++ ['\n']) ("z".toList)
      ∧ stringLoop '"' 5 ['"'] ("xy".toList) = .error ⟨5, "Unexpected end of file"⟩
      ∧ run 1 1 ⟨.root, [], 1, 0⟩ [] ('"' :: "ab".toList)
        = .error ⟨1, "Unexpected end of file"⟩ :=
  ⟨C7_theorem.1 '"' (Or.inr rfl) ("ab".toList) (by decide) (by decide) (by decide) ("c".toList) 1 ['"'],
   C7_theorem.2.1 1 ['`'] ("z".toList),
   C7_theorem.2.2.1 '"' (by decide) ("xy".toList) (by decide) (by decide) (by decide) 5 ['"'],
   C7_theorem.2.2.2.1 0 1 ⟨.root, [], 1, 0⟩ [] '"' ("ab".toList) ⟨1, "Unexpected end of file"⟩
     (by decide) rfl⟩

/-- C8: a STRING token delivered to an Hss (stylesheet-expression)
context whose delimiter is a single quote has its surrounding quotes
stripped, every internal single quote replaced by three backslashes and a
quote, and the result rewrapped in backslash-escaped single quotes before
being appended; a token whose delimiter is a double quote or backtick is
appended unchanged.  The escape map inserts the triple-backslash sequence
at every internal quote and leaves quoteless text untouched. -/
theorem C8_theorem (cur : Ctx) (h : cur.kind = .hss) :
    (∀ tl, ctxAdd cur (some .str) ('\'' :: tl)
        = { cur with content := cur.content ++ ('\\' :: '\'' :: escQuotes tl.dropLast) ++ ['\\', '\''] })
      ∧ (∀ s : List Char, s.head? = some '"' ∨ s.head? = some '`' →
          ctxAdd cur (some .str) s = { cur with content := cur.content ++ s })
      ∧ (∀ l1 l2 : List Char, escQuotes (l1 ++ '\'' :: l2)
          = escQuotes l1 ++ '\\' :: '\\' :: '\\' :: '\'' :: escQuotes l2)
      ∧ (∀ l : List Char, '\'' ∉ l → escQuotes l = l) := by
  obtain ⟨k, C, sl, ig⟩ := cur
  simp only [Ctx.mk.injEq] at h ⊢
  subst h
  refine ⟨fun tl => rfl, ?_, ?_, ?_⟩
  · intro s hs
    match s, hs with
    | '"' :: s, _ => rfl
    | '`' :: s, _ => rfl
    | [], hs => simp at hs
    | c :: s, hs =>
      rcases hs with hs | hs <;> simp only [List.head?_cons, Option.some.injEq] at hs <;>
        subst hs <;> rfl
  · intro l1 l2
    induction l1 with
    | nil => simp [escQuotes]
    | cons c l1 ih =>
      rw [List.cons_append, escQuotes, escQuotes, ih, List.append_assoc]
  · intro l hl
    induction l with
    | nil => rfl
    | cons c l ih =>
      simp only [List.mem_cons, not_or] at hl
      rw [escQuotes, if_neg (fun h => hl.1 h.symm), ih hl.2]
      rfl

/-- C8 (witness): the Hss STRING handler on the single-quoted token
`'a'b'` (its body holding one internal quote): quotes stripped, internal
quote triple-backslash-escaped, result rewrapped in escaped quotes; and a
double-quoted token passes through unchanged. -/
theorem C8_witness :
    ctxAdd ⟨.hss, [], 1, 0⟩ (some .str) ('\'' :: "a'b".toList ++ ['\''])
        = ⟨.hss, "\\'a\\\\\\'b\\'".toList, 1, 0⟩
      ∧ ctxAdd ⟨.hss, "c".toList, 1, 0⟩ (some .str) ("\"a\"".toList)
        = ⟨.hss, "c\"a\"".toList, 1, 0⟩ := by
  constructor
  · have h := (C8_theorem ⟨.hss, [], 1, 0⟩ rfl).1 ("a'b".toList ++ ['\''])
    exact h.trans (by decide)
  · have h := (C8_theorem ⟨.hss, "c".toList, 1, 0⟩ rfl).2.1 ("\"a\"".toList) (by decide)
    exact h.trans (by decide)

/-- C9: inside a single- or double-quoted string a backslash immediately
followed by a newline is accepted: the escape branch consumes both
characters before the newline check runs, the newline is copied into the
token and the line counter is still incremented — while a raw newline in
the same position is the fatal multi-line-string error.  End to end,
`"\<newline>"` transpiles to the token with the newline kept and the
backslash dropped. -/
theorem C9_theorem :
    (∀ line : Nat, ∀ acc tl : List Char,
        stringLoop '"' line acc ('\\' :: '\n' :: tl)
          = stringLoop '"' (line + 1) (acc ++ ['\n']) tl)
      ∧ (∀ line : Nat, ∀ acc tl : List Char,
          stringLoop '\'' line acc ('\\' :: '\n' :: tl)
            = stringLoop '\'' (line + 1) (acc ++ ['\n']) tl)
      ∧ (∀ line : Nat, ∀ acc tl : List Char,
          stringLoop '"' line acc ('\n' :: tl)
            = .error ⟨line, "Unexpected multi-line string"⟩)
      ∧ (∀ line : Nat, ∀ acc tl : List Char,
          stringLoop '\'' line acc ('\n' :: tl)
            = .error ⟨line, "Unexpected multi-line string"⟩)
      ∧ transpile "\"\\\n\"" = .ok "\"\n\"" := by
  refine ⟨?_, ?_, ?_, ?_, rfl⟩
  · intro line acc tl
    rw [stringLoop_esc '"' (by decide) line acc '\n' tl]
    rfl
  · intro line acc tl
    rw [stringLoop_esc '\'' (by decide) line acc '\n' tl]
    rfl
  · intro line acc tl
    exact stringLoop_nl_err '"' (by decide) (by decide) line acc tl
  · intro line acc tl
    exact stringLoop_nl_err '\'' (by decide) (by decide) line acc tl

/-- C10 (counterexample): comment tokens are NOT appended whole inside a
host-expression region — they are discarded: the block comment `/*[*/`
inside `<<[a/*[*/b]>>` is absent from the output (while, as the claim's
main clause says, its "[" neither affected the bracket counter nor the
region's close). -/
theorem C10_counterexample :
    transpile "<<[a/*[*/b]>>" = .ok "sheath.css.evaluate('' + sheath.css.jsExpr(ab) + '')"
      ∧ countSub ("/*".toList)
          ("sheath.css.evaluate('' + sheath.css.jsExpr(ab) + '')".toList) = 0 :=
  ⟨rfl, by decide⟩

/-- C10 (amended): in a host-expression (Js) region, brackets inside
string or comment tokens never affect the bracket-depth counter and never
close the region: a STRING token (always at least two characters, its
delimiters) is appended whole with the counter untouched; a COMMENT token
is discarded entirely, leaving the context unchanged; the driver
dispatches string and comment detection before any close-delimiter check,
whatever the current context; and end to end, `<<[a'['b]>>` closes at the
real "]" with the bracketed string spliced intact. -/
theorem C10_theorem :
    (∀ cur : Ctx, cur.kind = .js → ∀ s : List Char, 2 ≤ s.length →
        (ctxAdd cur (some .str) s).ignoreCount = cur.ignoreCount
          ∧ (ctxAdd cur (some .str) s).content = cur.content ++ s)
      ∧ (∀ cur : Ctx, cur.kind = .js → ∀ s : List Char, ctxAdd cur (some .comment) s = cur)
      ∧ (∀ f line (cur : Ctx) (stk : List Ctx) c tl tok line2 rest, isQuote c = true →
          stringLoop c line [c] tl = .ok (tok, line2, rest) →
          run (f + 1) line cur stk (c :: tl)
            = run f line2 (ctxAdd cur (some .str) tok) stk rest)
      ∧ (∀ f line (cur : Ctx) (stk : List Ctx) tl,
          run (f + 1) line cur stk ('/' :: '/' :: tl)
            = run f line (ctxAdd cur (some .comment) (lineComment [] ('/' :: '/' :: tl)).1) stk
                (lineComment [] ('/' :: '/' :: tl)).2)
      ∧ (∀ f line (cur : Ctx) (stk : List Ctx) tl,
          run (f + 1) line cur stk ('/' :: '*' :: tl)
            = run f (blockComment line ['/', '*'] tl).2.1
                (ctxAdd cur (some .comment) (blockComment line ['/', '*'] tl).1) stk
                (blockComment line ['/', '*'] tl).2.2)
      ∧ transpile "<<[a'['b]>>" = .ok "sheath.css.evaluate('' + sheath.css.jsExpr(a'['b) + '')" := by
  refine ⟨?_, ?_, run_quote_ok, run_lineComment, run_blockComment, rfl⟩
  · intro cur hk s hs
    obtain ⟨k, C, sl, ig⟩ := cur
    simp only [Ctx.mk.injEq] at hk
    subst hk
    have hne : ¬(s = ['[']) := by
      intro h
      subst h
      simp at hs
    simp [ctxAdd, jsAppend, hne]
  · intro cur hk s
    obtain ⟨k, C, sl, ig⟩ := cur
    simp only [Ctx.mk.injEq] at hk
    subst hk
    rfl

/-- C10 (witness): the amended C10's context-level statements at concrete
inputs: the string token `'['` delivered to a Js context leaves the
counter at 0 and appends the token whole; a comment token holding a "]"
leaves the context untouched. -/
theorem C10_witness :
    (ctxAdd ⟨.js, "a".toList, 1, 0⟩ (some .str) ("'['".toList)).ignoreCount = 0
      ∧ (ctxAdd ⟨.js, "a".toList, 1, 0⟩ (some .str) ("'['".toList)).content = "a'['".toList
      ∧ ctxAdd ⟨.js, "a".toList, 1, 0⟩ (some .comment) ("/*]*/".toList)
        = ⟨.js, "a".toList, 1, 0⟩ := by
  have h := C10_theorem.1 ⟨.js, "a".toList, 1, 0⟩ rfl ("'['".toList) (by decide)
  exact ⟨h.1.trans (by decide), h.2.trans (by decide),
    C10_theorem.2.1 ⟨.js, "a".toList, 1, 0⟩ rfl ("/*]*/".toList)⟩

end Hss
